import Mathlib

/-!
Verification development for the `sherlock` claim-evaluation / question-answering
agent repository.  The Python data model (`sherlock/models.py`), the graph export
(`sherlock/utils.py`) and the agent control loops with their retry wrapper
(`sherlock/agents.py`) are shallowly embedded as executable Lean definitions,
and the testable properties of the specification are settled against them.

Modelling conventions:
* Python ints are `Nat` (all quantities involved are non-negative counts);
  Python floats that only ever hold exact division results are `Rat`.
* Mutation of `self` is explicit state passing: a method that mutates returns
  the updated value.
* The remote reasoning engine is an abstract decision source
  `engine : Nat → Option Tool` giving, per turn number, either a tool
  invocation (`some`) or a text-only response (`none`, i.e. a response whose
  stop reason is not "tool_use").
* `uuid.uuid4()` default ids are an abstract fresh-id source `idGen`.
* Wall-clock time is an abstract `elapsed` parameter.
-/

namespace Sherlock

/-! ## Decimal rendering of naturals (models Python `str(n)` / f-string interpolation) -/

/-- Base-10 digits of `n`, least significant first, driven by explicit fuel so
that the definition is structural and kernel-reducible.  Fuel `n` is always
sufficient because `n / 10 < n` for `n ≠ 0`. -/
def digitsRevFuel : Nat → Nat → List Nat
  | 0, _ => []
  | fuel + 1, n => if n = 0 then [] else (n % 10) :: digitsRevFuel fuel (n / 10)

/-- Base-10 digits of `n`, least significant first. -/
def digitsRev (n : Nat) : List Nat := digitsRevFuel n n

/-- Decimal string of a natural number, as Python `str` renders it. -/
def natStr (n : Nat) : String :=
  if n = 0 then "0" else String.mk (((digitsRev n).reverse).map Nat.digitChar)

/-! ## Model of the external `slugify` dependency

Modelled from the spec: the repository's `Claim.generate_id` delegates to the
third-party `python-slugify` library, whose source is not part of this
repository.  The spec describes the normalization as "lowercase,
non-alphanumeric runs collapsed to a single separator"; the model below
implements exactly that (ASCII behaviour, separator `-`, leading/trailing
separators trimmed), matching `slugify("Rain Tomorrow!") = "rain-tomorrow"`. -/

/-- Split a character list on non-alphanumeric characters, lowercasing the
kept characters; produces the (possibly empty) chunks between separators. -/
def splitNonAlnum : List Char → List Char → List (List Char)
  | [], acc => [acc.reverse]
  | c :: rest, acc =>
    if c.isAlphanum then splitNonAlnum rest (c.toLower :: acc)
    else acc.reverse :: splitNonAlnum rest []

/-- Join word chunks with single hyphens. -/
def joinHyphen : List (List Char) → List Char
  | [] => []
  | [w] => w
  | w :: ws => w ++ '-' :: joinHyphen ws

/-- Model of `slugify(text)`: lowercase, collapse non-alphanumeric runs to a
single `-`, drop empty chunks (which trims leading/trailing separators). -/
def slugify (s : String) : String :=
  String.mk (joinHyphen ((splitNonAlnum s.data []).filter (fun w => !w.isEmpty)))

/-! ## Data model (`sherlock/models.py`) -/

/-- `Evidence` (models.py): id, text, and the query that retrieved it. -/
structure Evidence where
  id : String
  text : String
  query : Option String
deriving DecidableEq, Repr

/-- `EvidenceCollection` (models.py): an ordered list of evidence;
`__len__` is the list length. -/
structure EvidenceCollection where
  evidence : List Evidence
deriving DecidableEq, Repr

/-- `len(evidence_collection)` from models.py. -/
def EvidenceCollection.length (ec : EvidenceCollection) : Nat :=
  ec.evidence.length

/-- `Likelihood` (models.py): non-negative supporting/opposing tallies. -/
structure Likelihood where
  supporting : Nat
  opposing : Nat
deriving DecidableEq, Repr

/-- `Likelihood.supporting_percentage` (models.py): total = supporting +
opposing; returns 0 when total = 0, else supporting / total * 100.  Python
computes in float; the values are exact rationals, modelled in `Rat`. -/
def Likelihood.supporting_percentage (l : Likelihood) : Rat :=
  let total := l.supporting + l.opposing
  if total = 0 then 0 else ((l.supporting : Rat) / (total : Rat)) * 100

/-- `Likelihood.opposing_percentage` (models.py). -/
def Likelihood.opposing_percentage (l : Likelihood) : Rat :=
  let total := l.supporting + l.opposing
  if total = 0 then 0 else ((l.opposing : Rat) / (total : Rat)) * 100

/-- `Argument` (models.py), parameterized by the claim type because arguments
hold subclaims which are `Claim`s: id (a uuid in the source), text, polarity,
evidence collection and subclaims. -/
structure ArgumentF (C : Type) where
  id : String
  text : String
  supports : Bool
  evidence_collection : EvidenceCollection
  subclaims : List C

/-- `Claim` (models.py): text, slug id, arguments, likelihood.  Claims and
arguments are mutually nested through `subclaims`. -/
inductive Claim where
  | mk (text : String) (id : String) (arguments : List (ArgumentF Claim))
      (likelihood : Likelihood)

/-- An argument whose subclaims are claims, as in the source. -/
abbrev Argument := ArgumentF Claim

/-- Field accessor for the nested inductive `Claim`. -/
def Claim.text : Claim → String
  | .mk t _ _ _ => t

/-- Field accessor for the nested inductive `Claim`. -/
def Claim.id : Claim → String
  | .mk _ i _ _ => i

/-- Field accessor for the nested inductive `Claim`. -/
def Claim.arguments : Claim → List Argument
  | .mk _ _ a _ => a

/-- Field accessor for the nested inductive `Claim`. -/
def Claim.likelihood : Claim → Likelihood
  | .mk _ _ _ l => l

/-- `Argument.evidence_score` (models.py): the number of evidence pieces. -/
def ArgumentF.evidence_score {C : Type} (a : ArgumentF C) : Nat :=
  a.evidence_collection.evidence.length

/-- `Claim.generate_id` (models.py): slugified id from text. -/
def Claim.generate_id (text : String) : String := slugify text

/-- `Claim(text=...)` construction: the pydantic `model_validator` fills the
id from the text via `generate_id`; arguments and likelihood default empty. -/
def Claim.ofText (text : String) : Claim :=
  .mk text (Claim.generate_id text) [] ⟨0, 0⟩

/-- `Claim._update_likelihood` (models.py): recompute the likelihood in full
as the sums of `evidence_score` over supporting resp. opposing arguments. -/
def Claim.update_likelihood (c : Claim) : Claim :=
  .mk c.text c.id c.arguments
    ⟨((c.arguments.filter (fun a => a.supports)).map ArgumentF.evidence_score).sum,
     ((c.arguments.filter (fun a => !a.supports)).map ArgumentF.evidence_score).sum⟩

/-- `Claim.add_argument` (models.py): append the argument, recompute the
likelihood, return the argument's id (here: the updated claim and the id). -/
def Claim.add_argument (c : Claim) (a : Argument) : Claim × String :=
  ((Claim.mk c.text c.id (c.arguments ++ [a]) c.likelihood).update_likelihood, a.id)

/-- `Query` (models.py): a search query and the evidence it retained. -/
structure Query where
  query_text : String
  evidence_found : List Evidence
deriving DecidableEq, Repr

/-- `Answer` (models.py): question, answer text, query log, confidence,
iterations used, elapsed seconds (float in the source, modelled as `Rat`). -/
structure Answer where
  question : String
  answer_text : String
  queries : List Query
  confidence : String
  iterations_used : Nat
  time_seconds : Rat
deriving DecidableEq, Repr

/-! ## Graph export (`sherlock/utils.py`, `export_argdown_json`) -/

/-- `_replace_underscores` (utils.py): replace `_` by `-`.  The pattern is a
single character, so Python's `str.replace` is the character-wise map. -/
def replace_underscores (t : String) : String :=
  String.mk (t.data.map (fun c => if c = '_' then '-' else c))

/-- A relation entry of the Argdown JSON export: `{"from": .., "to": ..,
"type": ..}` (`from` is a Lean keyword, hence `fromId`/`toId`). -/
structure Relation where
  fromId : String
  toId : String
  rtype : String
deriving DecidableEq, Repr

/-- A Python dict entry `key ↦ {"text": .., "title": ..}` of the
`statements` / `arguments` dictionaries. -/
abbrev DictEntry := String × String × String

/-- Keys of a modelled dict, in insertion order. -/
def dictKeys (m : List DictEntry) : List String := m.map (fun p => p.1)

/-- Python dict assignment `m[k] = {"text": text, "title": title}`: replace in
place when the key exists, otherwise append. -/
def upsert (m : List DictEntry) (k text title : String) : List DictEntry :=
  if m.any (fun p => p.1 = k) then
    m.map (fun p => if p.1 = k then (k, text, title) else p)
  else m ++ [(k, text, title)]

/-- The `metadata` block of the export. -/
structure GraphMetadata where
  title : String
  supporting : Nat
  opposing : Nat
  supporting_percentage : Rat
  opposing_percentage : Rat
deriving DecidableEq, Repr

/-- The Argdown JSON structure produced by `export_argdown_json`. -/
structure ArgdownJson where
  statements : List DictEntry
  arguments : List DictEntry
  relations : List Relation
  metadata : GraphMetadata
deriving DecidableEq, Repr

/-- Inner loop of `export_argdown_json` over one argument's evidence: each
evidence becomes a statement (dict upsert on its underscore-replaced id) and
a `support` relation from the evidence to the argument. -/
def processEvidence (argId : String) :
    List Evidence → List DictEntry → List Relation → List DictEntry × List Relation
  | [], stmts, rels => (stmts, rels)
  | e :: rest, stmts, rels =>
    let evidenceId := replace_underscores e.id
    processEvidence argId rest
      (upsert stmts evidenceId e.text ("Evidence " ++ evidenceId))
      (rels ++ [⟨evidenceId, argId, "support"⟩])

/-- Outer loop of `export_argdown_json` over the claim's arguments (index `i`
is the 0-based `enumerate` counter): each argument gets dict key
`argument_{i+1}`, a `support`/`attack` relation to the claim's raw id, and
its evidence is processed.  Subclaims are not visited. -/
def processArguments (claimIdRaw : String) :
    List Argument → Nat → List DictEntry → List DictEntry → List Relation →
      List DictEntry × List DictEntry × List Relation
  | [], _, stmts, args, rels => (stmts, args, rels)
  | a :: rest, i, stmts, args, rels =>
    let argId := "argument_" ++ natStr (i + 1)
    let args1 := upsert args argId a.text argId
    let rels1 := rels ++ [⟨argId, claimIdRaw, if a.supports then "support" else "attack"⟩]
    let sr := processEvidence argId a.evidence_collection.evidence stmts rels1
    processArguments claimIdRaw rest (i + 1) sr.1 args1 sr.2

/-- `export_argdown_json` (utils.py): statements dict seeded with the claim
(underscore-replaced id), arguments dict and relations built by the loops
above, metadata from the likelihood. -/
def export_argdown_json (c : Claim) : ArgdownJson :=
  let claimId := replace_underscores c.id
  let sar := processArguments c.id c.arguments 0 [(claimId, c.text, claimId)] [] []
  ⟨sar.1, sar.2.1, sar.2.2,
   ⟨c.text, c.likelihood.supporting, c.likelihood.opposing,
    c.likelihood.supporting_percentage, c.likelihood.opposing_percentage⟩⟩

/-- Nodes of the exported graph: statement entries (claim + evidence) plus
argument entries. -/
def ArgdownJson.nodeCount (g : ArgdownJson) : Nat :=
  g.statements.length + g.arguments.length

/-- Edges of the exported graph: the relations list. -/
def ArgdownJson.edgeCount (g : ArgdownJson) : Nat :=
  g.relations.length

/-- Total number of evidence pieces across a claim's arguments. -/
def Claim.totalEvidence (c : Claim) : Nat :=
  (c.arguments.map (fun a => a.evidence_collection.evidence.length)).sum

/-- Total number of (direct) subclaims across a claim's arguments; the export
never recurses into subclaims, so direct counting suffices for the claims
settled here. -/
def Claim.totalSubclaims (c : Claim) : Nat :=
  (c.arguments.map (fun a => a.subclaims.length)).sum

/-- The underscore-replaced evidence ids of a claim, in processing order
(argument order, then evidence order within an argument). -/
def Claim.evidenceKeys (c : Claim) : List String :=
  ((c.arguments.map (fun a => a.evidence_collection.evidence)).flatten).map
    (fun e => replace_underscores e.id)

/-! ## Agent control loops (`sherlock/agents.py`) -/

/-- The `tool_choice` parameter sent to the engine: `{"type": "any"}` or
`{"type": "tool", "name": ..}`. -/
inductive ToolChoice where
  | any
  | tool (name : String)
deriving DecidableEq, Repr

/-- A tool invocation the engine can request in `evaluate_claim`. -/
inductive CITool where
  | query_evidence (query : String)
  | create_argument (text : String) (supports : Bool)
      (evidence_collection : EvidenceCollection) (subclaims : List String)

/-- `query_evidence` handler (agents.py): wrap each raw `{id, text}` result
from the evidence store as `Evidence` tagged with the originating query. -/
def query_evidence (store : String → List (String × String)) (query : String) :
    EvidenceCollection :=
  ⟨(store query).map (fun r => ⟨r.1, r.2, some query⟩)⟩

/-- `create_argument` handler (agents.py): build an `Argument` whose id is a
fresh uuid (abstracted as the `uuid` parameter) and whose subclaim texts
become new `Claim`s with derived ids. -/
def create_argument (uuid : String) (text : String) (supports : Bool)
    (evidence_collection : EvidenceCollection) (subclaims : List String) : Argument :=
  ⟨uuid, text, supports, evidence_collection, subclaims.map Claim.ofText⟩

/-- Whether an engine response is a `create_argument` tool call. -/
def isCreateArgument : Option CITool → Bool
  | some (.create_argument _ _ _ _) => true
  | _ => false

/-- The `while iteration < max_iterations` loop of
`ClaimInvestigationAgent.evaluate_claim`, with `fuel = max_iterations -
iteration` remaining turns.  Per turn: force `create_argument` as tool choice
exactly on the last iteration; ask the engine; on a `create_argument` call
attach the argument and return; on a `query_evidence` call run the handler
(its result only feeds the transcript) and continue; on a non-tool response
continue.  Returns the final claim and the per-turn tool choices. -/
def evaluateClaimAux (store : String → List (String × String))
    (engine : Nat → Option CITool) (idGen : Nat → String) (max_iterations : Nat) :
    Nat → Nat → Claim → Claim × List ToolChoice
  | 0, _, claim => (claim, [])
  | fuel + 1, iteration, claim =>
    let it := iteration + 1
    let tc := if it = max_iterations then ToolChoice.tool "create_argument" else ToolChoice.any
    match engine it with
    | some (.create_argument text supports ec subs) =>
      ((claim.add_argument (create_argument (idGen it) text supports ec subs)).1, [tc])
    | some (.query_evidence q) =>
      let _transcriptEntry := query_evidence store q
      let r := evaluateClaimAux store engine idGen max_iterations fuel it claim
      (r.1, tc :: r.2)
    | none =>
      let r := evaluateClaimAux store engine idGen max_iterations fuel it claim
      (r.1, tc :: r.2)

/-- `ClaimInvestigationAgent.evaluate_claim`: run the loop from iteration 0
with budget `max_iterations`. -/
def evaluate_claim (store : String → List (String × String))
    (engine : Nat → Option CITool) (idGen : Nat → String) (max_iterations : Nat)
    (claim : Claim) : Claim × List ToolChoice :=
  evaluateClaimAux store engine idGen max_iterations max_iterations 0 claim

/-- Outcome of one attempted engine call, as seen by the retry wrapper. -/
inductive CallResult (α : Type) where
  | ok (a : α)
  | rateLimited

/-- Observable behaviour of `_call_claude_with_retry`: final outcome, the
backoff sleeps performed (in order), and the number of attempts made.
`noResult` is Python's implicit `None` when the `for` loop body never runs
(only reachable with `max_retries = 0`). -/
inductive RetryOutcome (α : Type) where
  | success (a : α)
  | rateLimitError
  | noResult

/-- Trace of a retry-wrapped call. -/
structure RetryTrace (α : Type) where
  outcome : RetryOutcome α
  sleeps : List Nat
  attempts : Nat

/-- `for attempt in range(max_retries)` body of `_call_claude_with_retry`:
return on success; on a rate limit, if `attempt < max_retries - 1` sleep
`base * (attempt + 1)` seconds and retry, else re-raise.  `base` is 10 for
`ClaimInvestigationAgent` and 20 for `QuestionAnsweringAgent`. -/
def callWithRetryAux {α : Type} (call : Nat → CallResult α) (base max_retries : Nat) :
    Nat → Nat → RetryTrace α
  | 0, _ => ⟨.noResult, [], 0⟩
  | fuel + 1, attempt =>
    match call attempt with
    | .ok a => ⟨.success a, [], 1⟩
    | .rateLimited =>
      if attempt < max_retries - 1 then
        let wait := base * (attempt + 1)
        let r := callWithRetryAux call base max_retries fuel (attempt + 1)
        ⟨r.outcome, wait :: r.sleeps, r.attempts + 1⟩
      else ⟨.rateLimitError, [], 1⟩

/-- `_call_claude_with_retry` (agents.py): up to `max_retries` attempts. -/
def call_claude_with_retry {α : Type} (call : Nat → CallResult α)
    (base max_retries : Nat) : RetryTrace α :=
  callWithRetryAux call base max_retries max_retries 0

/-! ### Question-answering agent -/

/-- Mutable session state of `QuestionAnsweringAgent`: the query log and the
pending (not yet filtered) last query results. -/
structure QAState where
  queries : List Query
  last_query_results : List Evidence
  last_query_text : String
deriving DecidableEq, Repr

/-- `QuestionAnsweringAgent.store_relevant_evidence` (agents.py): with no
pending results, report and change nothing; otherwise keep the pending
evidence whose id is among `evidence_ids`; if none remains, clear the pending
set and report, appending nothing; else append a `Query` with the retained
evidence and clear the pending set. -/
def store_relevant_evidence (st : QAState) (evidence_ids : List String) :
    QAState × String :=
  if st.last_query_results.isEmpty then
    (st, "No recent query results to filter")
  else
    let relevant := st.last_query_results.filter (fun e => evidence_ids.contains e.id)
    if relevant.isEmpty then
      ({ st with last_query_results := [] },
       "No relevant evidence was found in the last query results")
    else
      ({ st with
          queries := st.queries ++ [⟨st.last_query_text, relevant⟩],
          last_query_results := [] },
       "Stored " ++ natStr relevant.length ++ " relevant evidence pieces")

/-- `QuestionAnsweringAgent.query_evidence` (agents.py): run the store query
and hold the results in the pending scratch state (not yet in the log). -/
def qaQueryEvidence (store : String → List (String × String)) (st : QAState)
    (q : String) : QAState × EvidenceCollection :=
  let ec := query_evidence store q
  ({ st with last_query_results := ec.evidence, last_query_text := q }, ec)

/-- A tool invocation the engine can request in `answer_question`. -/
inductive QATool where
  | query_evidence (query : String)
  | store_relevant_evidence (evidence_ids : List String)
  | provide_answer (answer_text : String) (confidence : String)

/-- Whether an engine response is a `provide_answer` tool call. -/
def isProvideAnswer : Option QATool → Bool
  | some (.provide_answer _ _) => true
  | _ => false

/-- The `while iteration < self.max_iterations` loop of
`QuestionAnsweringAgent.answer_question` with `fuel` remaining turns.
On `provide_answer`, return that answer with question, iteration count and
elapsed time filled in.  On the other tools, update the session state and
continue; on a non-tool response continue.  When the budget runs out,
synthesize the fallback answer: text conditioned on whether any recorded
query holds evidence, confidence `"low"`, `iterations_used = max_iterations`,
elapsed time filled in. -/
def answerQuestionAux (store : String → List (String × String))
    (engine : Nat → Option QATool) (max_iterations : Nat) (question : String)
    (elapsed : Rat) : Nat → Nat → QAState → Answer × List ToolChoice
  | 0, _, st =>
    let answer_text :=
      if !st.queries.isEmpty && st.queries.any (fun q => 0 < q.evidence_found.length) then
        "Based on the limited evidence available, I cannot provide a definitive answer. Please review the evidence gathered."
      else
        "Unable to provide a conclusive answer based on available evidence."
    (⟨question, answer_text, st.queries, "low", max_iterations, elapsed⟩, [])
  | fuel + 1, iteration, st =>
    let it := iteration + 1
    let tc := if it = max_iterations then ToolChoice.tool "provide_answer" else ToolChoice.any
    match engine it with
    | some (.provide_answer txt conf) =>
      (⟨question, txt, st.queries, conf, it, elapsed⟩, [tc])
    | some (.query_evidence q) =>
      let r := answerQuestionAux store engine max_iterations question elapsed fuel it
        (qaQueryEvidence store st q).1
      (r.1, tc :: r.2)
    | some (.store_relevant_evidence ids) =>
      let r := answerQuestionAux store engine max_iterations question elapsed fuel it
        (store_relevant_evidence st ids).1
      (r.1, tc :: r.2)
    | none =>
      let r := answerQuestionAux store engine max_iterations question elapsed fuel it st
      (r.1, tc :: r.2)

/-- `QuestionAnsweringAgent.answer_question`: reset the session state, then
run the loop from iteration 0 with budget `max_iterations`. -/
def answer_question (store : String → List (String × String))
    (engine : Nat → Option QATool) (max_iterations : Nat) (question : String)
    (elapsed : Rat) : Answer × List ToolChoice :=
  answerQuestionAux store engine max_iterations question elapsed max_iterations 0
    ⟨[], [], ""⟩

/-! ## Helper lemmas -/

theorem digitsRevFuel_mem_lt :
    ∀ (fuel n d : Nat), d ∈ digitsRevFuel fuel n → d < 10 := by
  intro fuel
  induction fuel with
  | zero => intro n d hd; simp [digitsRevFuel] at hd
  | succ f ih =>
    intro n d hd
    by_cases hn : n = 0
    · simp [digitsRevFuel, hn] at hd
    · simp only [digitsRevFuel, if_neg hn, List.mem_cons] at hd
      rcases hd with h | h
      · subst h; exact Nat.mod_lt _ (by omega)
      · exact ih _ _ h

theorem digitChar_inj_lt :
    ∀ a < 10, ∀ b < 10, Nat.digitChar a = Nat.digitChar b → a = b := by decide

theorem map_digitChar_inj :
    ∀ (l1 l2 : List Nat), (∀ x ∈ l1, x < 10) → (∀ x ∈ l2, x < 10) →
      l1.map Nat.digitChar = l2.map Nat.digitChar → l1 = l2 := by
  intro l1
  induction l1 with
  | nil => intro l2 _ _ h; cases l2 <;> simp_all
  | cons a t ih =>
    intro l2 h1 h2 h
    cases l2 with
    | nil => simp at h
    | cons b t2 =>
      simp only [List.map_cons, List.cons.injEq] at h
      have ha : a = b :=
        digitChar_inj_lt a (h1 a (by simp)) b (h2 b (by simp)) h.1
      have ht : t = t2 :=
        ih t2 (fun x hx => h1 x (by simp [hx])) (fun x hx => h2 x (by simp [hx])) h.2
      rw [ha, ht]

theorem digitsRevFuel_inj :
    ∀ (f1 m f2 n : Nat), m ≤ f1 → n ≤ f2 →
      digitsRevFuel f1 m = digitsRevFuel f2 n → m = n := by
  intro f1
  induction f1 with
  | zero =>
    intro m f2 n hm hn h
    have hm0 : m = 0 := by omega
    subst hm0
    cases f2 with
    | zero => omega
    | succ g =>
      by_cases hn0 : n = 0
      · omega
      · simp [digitsRevFuel, if_neg hn0] at h
  | succ f ih =>
    intro m f2 n hm hn h
    by_cases hm0 : m = 0
    · subst hm0
      cases f2 with
      | zero => omega
      | succ g =>
        by_cases hn0 : n = 0
        · omega
        · simp [digitsRevFuel, if_neg hn0] at h
    · cases f2 with
      | zero =>
        have hn0 : n = 0 := by omega
        subst hn0
        simp [digitsRevFuel, if_neg hm0] at h
      | succ g =>
        by_cases hn0 : n = 0
        · subst hn0; simp [digitsRevFuel, if_neg hm0] at h
        · simp only [digitsRevFuel, if_neg hm0, if_neg hn0, List.cons.injEq] at h
          have hdiv : m / 10 = n / 10 := by
            refine ih (m / 10) g (n / 10) ?_ ?_ h.2
            · omega
            · omega
          omega

theorem natStr_inj_pos (m n : Nat) (hm : m ≠ 0) (hn : n ≠ 0)
    (h : natStr m = natStr n) : m = n := by
  simp only [natStr, if_neg hm, if_neg hn] at h
  have hdata : ((digitsRev m).reverse).map Nat.digitChar =
      ((digitsRev n).reverse).map Nat.digitChar := congrArg String.data h
  have h2 : (digitsRev m).reverse = (digitsRev n).reverse :=
    map_digitChar_inj _ _
      (fun x hx => digitsRevFuel_mem_lt m m x (List.mem_reverse.mp hx))
      (fun x hx => digitsRevFuel_mem_lt n n x (List.mem_reverse.mp hx)) hdata
  have h3 : digitsRev m = digitsRev n := List.reverse_injective h2
  exact digitsRevFuel_inj m m n n (Nat.le_refl m) (Nat.le_refl n) h3

theorem string_append_left_cancel (s t u : String) (h : s ++ t = s ++ u) :
    t = u := by
  cases s with
  | mk a =>
    cases t with
    | mk b =>
      cases u with
      | mk c =>
        have hd : a ++ b = a ++ c := congrArg String.data h
        exact congrArg String.mk (List.append_cancel_left hd)

/-- The dict keys `argument_{i+1}` used by the export are injective in `i`. -/
theorem argKey_inj (i j : Nat)
    (h : "argument_" ++ natStr (i + 1) = "argument_" ++ natStr (j + 1)) : i = j := by
  have h1 : natStr (i + 1) = natStr (j + 1) :=
    string_append_left_cancel _ _ _ h
  have := natStr_inj_pos (i + 1) (j + 1) (by omega) (by omega) h1
  omega

theorem dictKeys_append (m n : List DictEntry) :
    dictKeys (m ++ n) = dictKeys m ++ dictKeys n := by
  simp [dictKeys]

theorem upsert_of_not_mem (m : List DictEntry) (k text title : String)
    (h : k ∉ dictKeys m) : upsert m k text title = m ++ [(k, text, title)] := by
  have hany : m.any (fun p => p.1 = k) = false := by
    simp only [List.any_eq_false, decide_eq_true_eq]
    intro p hp hpk
    exact h (by simpa [dictKeys, hpk] using List.mem_map_of_mem (fun q => q.1) hp)
  simp [upsert, hany]

theorem processEvidence_snd (argId : String) :
    ∀ (evs : List Evidence) (stmts : List DictEntry) (rels : List Relation),
      (processEvidence argId evs stmts rels).2 =
        rels ++ evs.map (fun e => ⟨replace_underscores e.id, argId, "support"⟩) := by
  intro evs
  induction evs with
  | nil => intro stmts rels; simp [processEvidence]
  | cons e rest ih =>
    intro stmts rels
    simp only [processEvidence, ih, List.map_cons]
    simp

theorem processEvidence_fst_keys (argId : String) :
    ∀ (evs : List Evidence) (stmts : List DictEntry) (rels : List Relation),
      (∀ e ∈ evs, replace_underscores e.id ∉ dictKeys stmts) →
      (evs.map (fun e => replace_underscores e.id)).Nodup →
      dictKeys (processEvidence argId evs stmts rels).1 =
        dictKeys stmts ++ evs.map (fun e => replace_underscores e.id) := by
  intro evs
  induction evs with
  | nil => intro stmts rels _ _; simp [processEvidence]
  | cons e rest ih =>
    intro stmts rels hfresh hnodup
    rw [List.map_cons] at hnodup
    have hnd := List.nodup_cons.mp hnodup
    have hkey : replace_underscores e.id ∉ dictKeys stmts :=
      hfresh e (by simp)
    simp only [processEvidence,
      upsert_of_not_mem stmts _ _ _ hkey]
    rw [ih _ _ ?hf hnd.2]
    · rw [dictKeys_append]
      simp [dictKeys]
    case hf =>
      intro e2 he2
      rw [dictKeys_append]
      simp only [List.mem_append]
      rintro (hc | hc)
      · exact hfresh e2 (by simp [he2]) hc
      · simp only [dictKeys, List.map_cons, List.map_nil, List.mem_singleton] at hc
        exact hnd.1 (hc ▸ List.mem_map_of_mem (fun x => replace_underscores x.id) he2)

theorem processArguments_rels_length (claimIdRaw : String) :
    ∀ (args : List Argument) (i : Nat) (stmts argsD : List DictEntry)
      (rels : List Relation),
      (processArguments claimIdRaw args i stmts argsD rels).2.2.length =
        rels.length + args.length +
          (args.map (fun a => a.evidence_collection.evidence.length)).sum := by
  intro args
  induction args with
  | nil => intro i stmts argsD rels; simp [processArguments]
  | cons a rest ih =>
    intro i stmts argsD rels
    simp only [processArguments]
    rw [ih]
    rw [processEvidence_snd]
    simp
    omega

/-- Flattened evidence lists of a list of arguments, in processing order. -/
def argsEvidence (args : List Argument) : List Evidence :=
  (args.map (fun a => a.evidence_collection.evidence)).flatten

theorem processArguments_stmts_keys (claimIdRaw : String) :
    ∀ (args : List Argument) (i : Nat) (stmts argsD : List DictEntry)
      (rels : List Relation),
      (∀ e ∈ argsEvidence args, replace_underscores e.id ∉ dictKeys stmts) →
      ((argsEvidence args).map (fun e => replace_underscores e.id)).Nodup →
      dictKeys (processArguments claimIdRaw args i stmts argsD rels).1 =
        dictKeys stmts ++ (argsEvidence args).map (fun e => replace_underscores e.id) := by
  intro args
  induction args with
  | nil => intro i stmts argsD rels _ _; simp [processArguments, argsEvidence]
  | cons a rest ih =>
    intro i stmts argsD rels hfresh hnodup
    have hsplit : argsEvidence (a :: rest) =
        a.evidence_collection.evidence ++ argsEvidence rest := by
      simp [argsEvidence]
    rw [hsplit] at hfresh hnodup
    simp only [List.map_append] at hnodup
    have hnd := List.nodup_append.mp hnodup
    simp only [processArguments]
    rw [ih _ _ _ _ ?hf hnd.2.1]
    · rw [processEvidence_fst_keys _ _ _ _
        (fun e he => hfresh e (by simp [he])) hnd.1]
      rw [hsplit, List.map_append, List.append_assoc]
    case hf =>
      intro e he
      rw [processEvidence_fst_keys _ _ _ _
        (fun e2 he2 => hfresh e2 (by simp [he2])) hnd.1]
      simp only [List.mem_append]
      rintro (hc | hc)
      · exact hfresh e (by simp [he]) hc
      · rcases List.mem_map.mp hc with ⟨e2, he2, hkey⟩
        exact hnd.2.2 (List.mem_map_of_mem _ he2)
          (by rw [hkey]; exact List.mem_map_of_mem _ he)

theorem processArguments_args_length (claimIdRaw : String) :
    ∀ (args : List Argument) (i : Nat) (stmts argsD : List DictEntry)
      (rels : List Relation),
      (∀ k ∈ dictKeys argsD, ∀ j, i ≤ j → k ≠ "argument_" ++ natStr (j + 1)) →
      (processArguments claimIdRaw args i stmts argsD rels).2.1.length =
        argsD.length + args.length := by
  intro args
  induction args with
  | nil => intro i stmts argsD rels _; simp [processArguments]
  | cons a rest ih =>
    intro i stmts argsD rels hy
    have hkey : "argument_" ++ natStr (i + 1) ∉ dictKeys argsD := by
      intro hk
      exact hy _ hk i (Nat.le_refl i) rfl
    simp only [processArguments,
      upsert_of_not_mem argsD _ _ _ hkey]
    rw [ih _ _ _ _ ?hy2]
    · simp; omega
    case hy2 =>
      intro k hk j hj
      rw [dictKeys_append] at hk
      simp only [List.mem_append] at hk
      rcases hk with hk | hk
      · exact hy k hk j (by omega)
      · simp only [dictKeys, List.map_cons, List.map_nil, List.mem_singleton] at hk
        subst hk
        intro hc
        have := argKey_inj i j hc
        omega

theorem evaluateClaimAux_length (store : String → List (String × String))
    (engine : Nat → Option CITool) (idGen : Nat → String) (m : Nat) :
    ∀ (fuel iteration : Nat) (c : Claim),
      (evaluateClaimAux store engine idGen m fuel iteration c).2.length ≤ fuel := by
  intro fuel
  induction fuel with
  | zero => intro iteration c; simp [evaluateClaimAux]
  | succ f ih =>
    intro iteration c
    simp only [evaluateClaimAux]
    cases he : engine (iteration + 1) with
    | none => simpa using ih (iteration + 1) c
    | some t =>
      cases t with
      | create_argument text supports ec subs => simp
      | query_evidence q => simpa using ih (iteration + 1) c

theorem evaluateClaimAux_get (store : String → List (String × String))
    (engine : Nat → Option CITool) (idGen : Nat → String) (m : Nat) :
    ∀ (fuel iteration : Nat) (c : Claim) (j : Nat)
      (hj : j < (evaluateClaimAux store engine idGen m fuel iteration c).2.length),
      (evaluateClaimAux store engine idGen m fuel iteration c).2.get ⟨j, hj⟩ =
        if iteration + j + 1 = m then ToolChoice.tool "create_argument"
        else ToolChoice.any := by
  intro fuel
  induction fuel with
  | zero => intro iteration c j hj; simp [evaluateClaimAux] at hj
  | succ f ih =>
    intro iteration c j
    simp only [evaluateClaimAux]
    cases he : engine (iteration + 1) with
    | none =>
      cases j with
      | zero => intro hj; simp
      | succ k =>
        intro hj
        have hk : k < (evaluateClaimAux store engine idGen m f (iteration + 1) c).2.length := by
          simpa using hj
        have := ih (iteration + 1) c k hk
        simp only [List.get_eq_getElem, List.getElem_cons_succ]
        simp only [List.get_eq_getElem] at this
        rw [this, show iteration + (k + 1) + 1 = iteration + 1 + k + 1 from by omega]
    | some t =>
      cases t with
      | create_argument text supports ec subs =>
        cases j with
        | zero => intro hj; simp
        | succ k => intro hj; simp at hj
      | query_evidence q =>
        cases j with
        | zero => intro hj; simp
        | succ k =>
          intro hj
          have hk : k < (evaluateClaimAux store engine idGen m f (iteration + 1) c).2.length := by
            simpa using hj
          have := ih (iteration + 1) c k hk
          simp only [List.get_eq_getElem, List.getElem_cons_succ]
          simp only [List.get_eq_getElem] at this
          rw [this, show iteration + (k + 1) + 1 = iteration + 1 + k + 1 from by omega]

theorem evaluateClaimAux_no_create (store : String → List (String × String))
    (engine : Nat → Option CITool) (idGen : Nat → String) (m : Nat)
    (h : ∀ n, isCreateArgument (engine n) = false) :
    ∀ (fuel iteration : Nat) (c : Claim),
      (evaluateClaimAux store engine idGen m fuel iteration c).1 = c := by
  intro fuel
  induction fuel with
  | zero => intro iteration c; simp [evaluateClaimAux]
  | succ f ih =>
    intro iteration c
    simp only [evaluateClaimAux]
    cases he : engine (iteration + 1) with
    | none => simpa using ih (iteration + 1) c
    | some t =>
      cases t with
      | create_argument text supports ec subs =>
        have := h (iteration + 1)
        rw [he] at this
        simp [isCreateArgument] at this
      | query_evidence q => simpa using ih (iteration + 1) c

theorem answerQuestionAux_length (store : String → List (String × String))
    (engine : Nat → Option QATool) (m : Nat) (question : String) (elapsed : Rat) :
    ∀ (fuel iteration : Nat) (st : QAState),
      (answerQuestionAux store engine m question elapsed fuel iteration st).2.length ≤ fuel := by
  intro fuel
  induction fuel with
  | zero => intro iteration st; simp [answerQuestionAux]
  | succ f ih =>
    intro iteration st
    simp only [answerQuestionAux]
    cases he : engine (iteration + 1) with
    | none => simpa using ih (iteration + 1) st
    | some t =>
      cases t with
      | provide_answer txt conf => simp
      | query_evidence q => simpa using ih (iteration + 1) _
      | store_relevant_evidence ids => simpa using ih (iteration + 1) _

theorem answerQuestionAux_get (store : String → List (String × String))
    (engine : Nat → Option QATool) (m : Nat) (question : String) (elapsed : Rat) :
    ∀ (fuel iteration : Nat) (st : QAState) (j : Nat)
      (hj : j < (answerQuestionAux store engine m question elapsed fuel iteration st).2.length),
      (answerQuestionAux store engine m question elapsed fuel iteration st).2.get ⟨j, hj⟩ =
        if iteration + j + 1 = m then ToolChoice.tool "provide_answer"
        else ToolChoice.any := by
  intro fuel
  induction fuel with
  | zero => intro iteration st j hj; simp [answerQuestionAux] at hj
  | succ f ih =>
    intro iteration st j
    simp only [answerQuestionAux]
    cases he : engine (iteration + 1) with
    | none =>
      cases j with
      | zero => intro hj; simp
      | succ k =>
        intro hj
        have hk : k < (answerQuestionAux store engine m question elapsed f
            (iteration + 1) st).2.length := by simpa using hj
        have := ih (iteration + 1) st k hk
        simp only [List.get_eq_getElem, List.getElem_cons_succ]
        simp only [List.get_eq_getElem] at this
        rw [this, show iteration + (k + 1) + 1 = iteration + 1 + k + 1 from by omega]
    | some t =>
      cases t with
      | provide_answer txt conf =>
        cases j with
        | zero => intro hj; simp
        | succ k => intro hj; simp at hj
      | query_evidence q =>
        cases j with
        | zero => intro hj; simp
        | succ k =>
          intro hj
          have hk : k < (answerQuestionAux store engine m question elapsed f
              (iteration + 1) (qaQueryEvidence store st q).1).2.length := by simpa using hj
          have := ih (iteration + 1) (qaQueryEvidence store st q).1 k hk
          simp only [List.get_eq_getElem, List.getElem_cons_succ]
          simp only [List.get_eq_getElem] at this
          rw [this, show iteration + (k + 1) + 1 = iteration + 1 + k + 1 from by omega]
      | store_relevant_evidence ids =>
        cases j with
        | zero => intro hj; simp
        | succ k =>
          intro hj
          have hk : k < (answerQuestionAux store engine m question elapsed f
              (iteration + 1) (store_relevant_evidence st ids).1).2.length := by
            simpa using hj
          have := ih (iteration + 1) (store_relevant_evidence st ids).1 k hk
          simp only [List.get_eq_getElem, List.getElem_cons_succ]
          simp only [List.get_eq_getElem] at this
          rw [this, show iteration + (k + 1) + 1 = iteration + 1 + k + 1 from by omega]

theorem answerQuestionAux_no_answer (store : String → List (String × String))
    (engine : Nat → Option QATool) (m : Nat) (question : String) (elapsed : Rat)
    (h : ∀ n, isProvideAnswer (engine n) = false) :
    ∀ (fuel iteration : Nat) (st : QAState),
      (answerQuestionAux store engine m question elapsed fuel iteration st).1.confidence = "low" ∧
      (answerQuestionAux store engine m question elapsed fuel iteration st).1.iterations_used = m ∧
      (answerQuestionAux store engine m question elapsed fuel iteration st).1.time_seconds = elapsed ∧
      (answerQuestionAux store engine m question elapsed fuel iteration st).1.question = question ∧
      (answerQuestionAux store engine m question elapsed fuel iteration st).1.answer_text =
        (if !(answerQuestionAux store engine m question elapsed fuel iteration st).1.queries.isEmpty
            && (answerQuestionAux store engine m question elapsed fuel iteration st).1.queries.any
                (fun q => 0 < q.evidence_found.length) then
          "Based on the limited evidence available, I cannot provide a definitive answer. Please review the evidence gathered."
        else
          "Unable to provide a conclusive answer based on available evidence.") := by
  intro fuel
  induction fuel with
  | zero => intro iteration st; simp [answerQuestionAux]
  | succ f ih =>
    intro iteration st
    cases he : engine (iteration + 1) with
    | none =>
      simp only [answerQuestionAux, he]
      simpa using ih (iteration + 1) st
    | some t =>
      cases t with
      | provide_answer txt conf =>
        have := h (iteration + 1)
        rw [he] at this
        simp [isProvideAnswer] at this
      | query_evidence q =>
        simp only [answerQuestionAux, he]
        simpa using ih (iteration + 1) _
      | store_relevant_evidence ids =>
        simp only [answerQuestionAux, he]
        simpa using ih (iteration + 1) _

theorem call_claude_with_retry_all_limited {α : Type} (call : Nat → CallResult α)
    (base : Nat) (h : ∀ n, call n = CallResult.rateLimited) :
    call_claude_with_retry call base 3 =
      ⟨RetryOutcome.rateLimitError, [base * 1, base * 2], 3⟩ := by
  simp [call_claude_with_retry, callWithRetryAux, h]

/-! ## Claim theorems -/

/-- C1: for every Claim and every sequence of `add_argument` calls, after each
call `likelihood.supporting` equals the sum of `evidence_score` over the
claim's arguments with `supports = true`, and `likelihood.opposing` the
analogous sum over arguments with `supports = false`, the likelihood being
recomputed in full from the arguments list on every call. -/
theorem claim_C1 (c : Claim) (pre : List Argument) (a : Argument) :
    (((pre.foldl (fun acc arg => (acc.add_argument arg).1) c).add_argument a).1).likelihood.supporting =
      (((((pre.foldl (fun acc arg => (acc.add_argument arg).1) c).add_argument a).1).arguments.filter
          (fun x => x.supports)).map ArgumentF.evidence_score).sum ∧
    (((pre.foldl (fun acc arg => (acc.add_argument arg).1) c).add_argument a).1).likelihood.opposing =
      (((((pre.foldl (fun acc arg => (acc.add_argument arg).1) c).add_argument a).1).arguments.filter
          (fun x => !x.supports)).map ArgumentF.evidence_score).sum :=
  ⟨rfl, rfl⟩

/-- C2 (amended): for every `store_relevant_evidence` call with a non-empty
pending query result set, supplied ids not present in the pending set are
silently excluded (only pending evidence whose id is among the supplied ids
is retained); the pending scratch state is always cleared; and when zero
supplied ids match, no Query record is appended — the query log is unchanged
(rather than an empty Query being appended, as the original claim states). -/
theorem claim_C2 (st : QAState) (evidence_ids : List String)
    (h : st.last_query_results ≠ []) :
    (store_relevant_evidence st evidence_ids).1.last_query_results = [] ∧
    (st.last_query_results.filter (fun e => evidence_ids.contains e.id) = [] →
      (store_relevant_evidence st evidence_ids).1.queries = st.queries) ∧
    (st.last_query_results.filter (fun e => evidence_ids.contains e.id) ≠ [] →
      (store_relevant_evidence st evidence_ids).1.queries =
        st.queries ++ [⟨st.last_query_text,
          st.last_query_results.filter (fun e => evidence_ids.contains e.id)⟩]) := by
  obtain ⟨qs, lqr, lqt⟩ := st
  cases lqr with
  | nil => exact absurd rfl h
  | cons e rest =>
    simp only [store_relevant_evidence, List.isEmpty_cons, Bool.false_eq_true, if_false]
    by_cases hf : List.filter (fun x => evidence_ids.contains x.id) (e :: rest) = []
    · have hfe : (List.filter (fun x => evidence_ids.contains x.id) (e :: rest)).isEmpty
          = true := by
        rw [hf]; rfl
      rw [if_pos hfe]
      exact ⟨rfl, fun _ => rfl, fun hc => absurd hf hc⟩
    · have hfe : (List.filter (fun x => evidence_ids.contains x.id) (e :: rest)).isEmpty
          = false := by
        cases hcase : List.filter (fun x => evidence_ids.contains x.id) (e :: rest) with
        | nil => exact absurd hcase hf
        | cons a l => rfl
      rw [if_neg (by rw [hfe]; exact Bool.false_ne_true)]
      exact ⟨rfl, fun hc => absurd hc hf, fun _ => rfl⟩

/-- C2 counterexample: with pending set `[e1]` and zero matching supplied ids,
the code leaves the query log unchanged (empty); the claimed empty Query
record `⟨"q", []⟩` is not appended. -/
theorem claim_C2_counterexample :
    ¬((store_relevant_evidence ⟨[], [⟨"e1", "msg", none⟩], "q"⟩ []).1.queries =
      [(⟨"q", []⟩ : Query)]) := by decide

/-- C2 witness: a concrete call with pending `[e1, e2]` and supplied ids
`[e2, zz]` appends exactly the Query retaining `e2` (the unknown id `zz` and
unselected `e1` are excluded). -/
theorem claim_C2_witness :
    (store_relevant_evidence ⟨[], [⟨"e1", "t1", none⟩, ⟨"e2", "t2", none⟩], "q"⟩
        ["e2", "zz"]).1.queries =
      [] ++ [(⟨"q", [⟨"e2", "t2", none⟩]⟩ : Query)] :=
  (claim_C2 ⟨[], [⟨"e1", "t1", none⟩, ⟨"e2", "t2", none⟩], "q"⟩ ["e2", "zz"]
    (by decide)).2.2 (by decide)

/-- C3 (amended): provided the claim's statement keys — the
underscore-replaced claim id and the underscore-replaced evidence ids — are
pairwise distinct, exporting a Claim yields exactly
`1 + |arguments| + total evidence` nodes and `|arguments| + total evidence`
edges; subclaims are not represented in the export (contrary to the original
claim, which also counts subclaim nodes and argument-to-subclaim edges). -/
theorem claim_C3 (c : Claim)
    (h : (replace_underscores c.id :: c.evidenceKeys).Nodup) :
    (export_argdown_json c).nodeCount = 1 + c.arguments.length + c.totalEvidence ∧
    (export_argdown_json c).edgeCount = c.arguments.length + c.totalEvidence := by
  have hek : c.evidenceKeys =
      (argsEvidence c.arguments).map (fun e => replace_underscores e.id) := rfl
  rw [hek] at h
  have hnd := List.nodup_cons.mp h
  have hfresh : ∀ e ∈ argsEvidence c.arguments,
      replace_underscores e.id ∉
        dictKeys [(replace_underscores c.id, c.text, replace_underscores c.id)] := by
    intro e he hc
    simp only [dictKeys, List.map_cons, List.map_nil, List.mem_singleton] at hc
    exact hnd.1 (hc ▸ List.mem_map_of_mem (fun x => replace_underscores x.id) he)
  have hkeys := processArguments_stmts_keys c.id c.arguments 0
    [(replace_underscores c.id, c.text, replace_underscores c.id)] [] [] hfresh hnd.2
  have hstmtlen : (processArguments c.id c.arguments 0
      [(replace_underscores c.id, c.text, replace_underscores c.id)] [] []).1.length =
      (argsEvidence c.arguments).length + 1 := by
    have hlen := congrArg List.length hkeys
    simpa [dictKeys] using hlen
  have hargslen := processArguments_args_length c.id c.arguments 0
    [(replace_underscores c.id, c.text, replace_underscores c.id)] [] []
    (by intro k hk; simp [dictKeys] at hk)
  have hrels := processArguments_rels_length c.id c.arguments 0
    [(replace_underscores c.id, c.text, replace_underscores c.id)] [] []
  have hflat : (argsEvidence c.arguments).length = c.totalEvidence := by
    simp only [argsEvidence, Claim.totalEvidence, List.length_flatten, List.map_map]
    congr 1
  constructor
  · simp only [ArgdownJson.nodeCount, export_argdown_json]
    rw [hstmtlen, hargslen, hflat]
    simp only [List.length_nil]
    omega
  · simp only [ArgdownJson.edgeCount, export_argdown_json]
    rw [hrels]
    simp only [Claim.totalEvidence, List.length_nil]
    omega

/-- A concrete claim with one argument carrying one subclaim and no evidence:
the export contains 2 nodes (claim + argument) and 1 edge, not the 3 nodes
and 2 edges the original C3 claim predicts. -/
def c3Claim : Claim :=
  .mk "c" "c" [⟨"a1", "arg", true, ⟨[]⟩, [Claim.ofText "sub"]⟩] ⟨0, 0⟩

/-- C3 counterexample: on `c3Claim` (one argument, zero evidence, one
subclaim) the exported node count is 2, not
`1 + |arguments| + total evidence + total subclaims = 3`, and the edge count
is 1, not 2 — the export ignores subclaims. -/
theorem claim_C3_counterexample :
    ¬((export_argdown_json c3Claim).nodeCount =
        1 + c3Claim.arguments.length + c3Claim.totalEvidence + c3Claim.totalSubclaims ∧
      (export_argdown_json c3Claim).edgeCount =
        c3Claim.arguments.length + c3Claim.totalEvidence + c3Claim.totalSubclaims) := by
  decide

/-- A concrete claim with one argument and two evidence pieces, with all
statement keys distinct. -/
def c3WitnessClaim : Claim :=
  .mk "w" "w_id" [⟨"a1", "arg", true, ⟨[⟨"ev_1", "t1", none⟩, ⟨"ev2", "t2", none⟩]⟩, []⟩]
    ⟨2, 0⟩

/-- C3 witness: the amended counts hold on a concrete claim with one argument
and two evidence pieces. -/
theorem claim_C3_witness :
    (export_argdown_json c3WitnessClaim).nodeCount =
      1 + c3WitnessClaim.arguments.length + c3WitnessClaim.totalEvidence ∧
    (export_argdown_json c3WitnessClaim).edgeCount =
      c3WitnessClaim.arguments.length + c3WitnessClaim.totalEvidence :=
  claim_C3 c3WitnessClaim (by decide)

/-- C4: for every `evaluate_claim` session whose engine never issues the
terminal `create_argument` tool call (including declining the forced tool on
the final turn), the loop returns the input Claim unmodified — no argument
attached, likelihood unchanged — and, the model being total, no exception
reaches the caller. -/
theorem claim_C4 (store : String → List (String × String))
    (engine : Nat → Option CITool) (idGen : Nat → String) (max_iterations : Nat)
    (claim : Claim) (h : ∀ n, isCreateArgument (engine n) = false) :
    (evaluate_claim store engine idGen max_iterations claim).1 = claim :=
  evaluateClaimAux_no_create store engine idGen max_iterations h max_iterations 0 claim

/-- C4 witness: the spec's end-to-end scenario — `max_iterations = 2` and an
engine that never calls `create_argument`, not even on the forced final turn
— returns the original claim unchanged. -/
theorem claim_C4_witness :
    (evaluate_claim (fun _ => []) (fun _ => none) (fun _ => "") 2
        (Claim.ofText "It will rain tomorrow")).1 =
      Claim.ofText "It will rain tomorrow" :=
  claim_C4 (fun _ => []) (fun _ => none) (fun _ => "") 2
    (Claim.ofText "It will rain tomorrow") (fun _ => rfl)

/-- C5: for every single `evaluate_claim` or `answer_question` call with any
`max_iterations ≥ 1`, the control loop performs at most `max_iterations`
engine round trips before terminating. -/
theorem claim_C5 (store : String → List (String × String))
    (engine : Nat → Option CITool) (idGen : Nat → String)
    (qengine : Nat → Option QATool) (max_iterations : Nat) (claim : Claim)
    (question : String) (elapsed : Rat) (h : 1 ≤ max_iterations) :
    (evaluate_claim store engine idGen max_iterations claim).2.length ≤ max_iterations ∧
    (answer_question store qengine max_iterations question elapsed).2.length ≤
      max_iterations :=
  ⟨evaluateClaimAux_length store engine idGen max_iterations max_iterations 0 claim,
   answerQuestionAux_length store qengine max_iterations question elapsed
     max_iterations 0 ⟨[], [], ""⟩⟩

/-- C5 witness: with `max_iterations = 2` and engines that never call a
terminal tool, both loops make at most 2 engine round trips. -/
theorem claim_C5_witness :
    (evaluate_claim (fun _ => []) (fun _ => none) (fun _ => "") 2
        (Claim.ofText "w5")).2.length ≤ 2 ∧
    (answer_question (fun _ => []) (fun _ => none) 2 "w5" 0).2.length ≤ 2 :=
  claim_C5 (fun _ => []) (fun _ => none) (fun _ => "") (fun _ => none) 2
    (Claim.ofText "w5") "w5" 0 (by decide)

/-- C6: in every evaluation or answering session, the engine request of turn
`max_iterations` — and of no other turn — carries a forced tool choice naming
the terminal tool (`create_argument` resp. `provide_answer`); every earlier
turn sends the free choice `any`. -/
theorem claim_C6 (store : String → List (String × String))
    (engine : Nat → Option CITool) (idGen : Nat → String)
    (qengine : Nat → Option QATool) (max_iterations : Nat) (claim : Claim)
    (question : String) (elapsed : Rat) :
    (∀ (j : Nat)
      (hj : j < (evaluate_claim store engine idGen max_iterations claim).2.length),
      (evaluate_claim store engine idGen max_iterations claim).2.get ⟨j, hj⟩ =
        if j + 1 = max_iterations then ToolChoice.tool "create_argument"
        else ToolChoice.any) ∧
    (∀ (j : Nat)
      (hj : j < (answer_question store qengine max_iterations question elapsed).2.length),
      (answer_question store qengine max_iterations question elapsed).2.get ⟨j, hj⟩ =
        if j + 1 = max_iterations then ToolChoice.tool "provide_answer"
        else ToolChoice.any) := by
  constructor
  · intro j hj
    have := evaluateClaimAux_get store engine idGen max_iterations max_iterations 0
      claim j hj
    simpa using this
  · intro j hj
    have := answerQuestionAux_get store qengine max_iterations question elapsed
      max_iterations 0 ⟨[], [], ""⟩ j hj
    simpa using this

/-- C6 witness: with `max_iterations = 2` and engines that never call tools,
turn 2's request is the forced terminal tool and turn 1's request is the free
choice. -/
theorem claim_C6_witness :
    (evaluate_claim (fun _ => []) (fun _ => none) (fun _ => "") 2
        (Claim.ofText "w6")).2.get ⟨1, by decide⟩ = ToolChoice.tool "create_argument" ∧
    (answer_question (fun _ => []) (fun _ => none) 2 "w6" 0).2.get ⟨0, by decide⟩ =
      ToolChoice.any := by
  constructor
  · exact (claim_C6 (fun _ => []) (fun _ => none) (fun _ => "") (fun _ => none) 2
      (Claim.ofText "w6") "w6" 0).1 1 (by decide)
  · exact (claim_C6 (fun _ => []) (fun _ => none) (fun _ => "") (fun _ => none) 2
      (Claim.ofText "w6") "w6" 0).2 0 (by decide)

/-- C7 (amended): for every retry-wrapped engine call with `max_retries = 3`
that rate-limits on every attempt, the wrapper makes exactly three attempts
(no fourth), sleeps before each of the two retries with strictly increasing
delays equal to the fixed base times the retry number — 10s then 20s for
claim evaluation (base 10), 20s then 40s for question answering (base 20);
no third sleep of 30s/60s occurs, since after the third attempt the
rate-limit failure is propagated to the caller instead. -/
theorem claim_C7 {α : Type} (call : Nat → CallResult α)
    (h : ∀ n, call n = CallResult.rateLimited) :
    (call_claude_with_retry call 10 3).attempts = 3 ∧
    (call_claude_with_retry call 10 3).sleeps = [10, 20] ∧
    (call_claude_with_retry call 10 3).outcome = RetryOutcome.rateLimitError ∧
    (call_claude_with_retry call 20 3).attempts = 3 ∧
    (call_claude_with_retry call 20 3).sleeps = [20, 40] ∧
    (call_claude_with_retry call 20 3).outcome = RetryOutcome.rateLimitError ∧
    List.Chain' (fun x y => x < y) (call_claude_with_retry call 10 3).sleeps ∧
    List.Chain' (fun x y => x < y) (call_claude_with_retry call 20 3).sleeps := by
  rw [call_claude_with_retry_all_limited call 10 h,
    call_claude_with_retry_all_limited call 20 h]
  refine ⟨rfl, rfl, rfl, rfl, rfl, rfl, ?_, ?_⟩
  · exact List.chain'_cons.mpr ⟨by norm_num, List.chain'_singleton _⟩
  · exact List.chain'_cons.mpr ⟨by norm_num, List.chain'_singleton _⟩

/-- C7 counterexample: with every attempt rate-limited and `max_retries = 3`,
the sleep sequence of the claim-evaluation wrapper is `[10, 20]`, not the
`[10, 20, 30]` stated by the original claim (a 30s sleep would require a
fourth attempt, which is never made). -/
theorem claim_C7_counterexample :
    ¬((call_claude_with_retry (fun _ => CallResult.rateLimited (α := Unit)) 10 3).sleeps =
      [10, 20, 30]) := by decide

/-- C7 witness: the amended retry behaviour on a concrete always-rate-limited
call. -/
theorem claim_C7_witness :
    (call_claude_with_retry (fun _ => CallResult.rateLimited (α := Unit)) 10 3).sleeps =
      [10, 20] ∧
    (call_claude_with_retry (fun _ => CallResult.rateLimited (α := Unit)) 20 3).sleeps =
      [20, 40] :=
  ⟨(claim_C7 (fun _ => CallResult.rateLimited (α := Unit)) (fun _ => rfl)).2.1,
   (claim_C7 (fun _ => CallResult.rateLimited (α := Unit)) (fun _ => rfl)).2.2.2.2.1⟩

/-- C8: every `answer_question` session that exhausts its iteration budget
without a terminal `provide_answer` tool call returns an Answer with
confidence exactly `"low"`, an answer text chosen by whether any recorded
Query has non-empty `evidence_found`, `iterations_used = max_iterations`,
and the elapsed wall-clock time filled in. -/
theorem claim_C8 (store : String → List (String × String))
    (engine : Nat → Option QATool) (max_iterations : Nat) (question : String)
    (elapsed : Rat) (h : ∀ n, isProvideAnswer (engine n) = false) :
    (answer_question store engine max_iterations question elapsed).1.confidence = "low" ∧
    (answer_question store engine max_iterations question elapsed).1.iterations_used =
      max_iterations ∧
    (answer_question store engine max_iterations question elapsed).1.time_seconds =
      elapsed ∧
    (answer_question store engine max_iterations question elapsed).1.answer_text =
      (if !(answer_question store engine max_iterations question elapsed).1.queries.isEmpty
          && (answer_question store engine max_iterations question elapsed).1.queries.any
              (fun q => 0 < q.evidence_found.length) then
        "Based on the limited evidence available, I cannot provide a definitive answer. Please review the evidence gathered."
      else
        "Unable to provide a conclusive answer based on available evidence.") := by
  have := answerQuestionAux_no_answer store engine max_iterations question elapsed h
    max_iterations 0 ⟨[], [], ""⟩
  exact ⟨this.1, this.2.1, this.2.2.1, this.2.2.2.2⟩

/-- C8 witness: a concrete exhausted session (engine never answers) yields a
low-confidence fallback Answer with the iteration budget and elapsed time
recorded. -/
theorem claim_C8_witness :
    (answer_question (fun _ => []) (fun _ => none) 3 "q8" 5).1.confidence = "low" ∧
    (answer_question (fun _ => []) (fun _ => none) 3 "q8" 5).1.iterations_used = 3 ∧
    (answer_question (fun _ => []) (fun _ => none) 3 "q8" 5).1.time_seconds = 5 :=
  ⟨(claim_C8 (fun _ => []) (fun _ => none) 3 "q8" 5 (fun _ => rfl)).1,
   (claim_C8 (fun _ => []) (fun _ => none) 3 "q8" 5 (fun _ => rfl)).2.1,
   (claim_C8 (fun _ => []) (fun _ => none) 3 "q8" 5 (fun _ => rfl)).2.2.1⟩

/-- C9: `Claim.generate_id` is a deterministic function of the input text
(repeated calls agree), any two texts with the same slug normalization get
the same id, and in particular the distinct texts "Rain Tomorrow!" and
"rain tomorrow" generate equal ids. -/
theorem claim_C9 (t t1 t2 : String) (h : slugify t1 = slugify t2) :
    Claim.generate_id t = Claim.generate_id t ∧
    Claim.generate_id t1 = Claim.generate_id t2 ∧
    Claim.generate_id "Rain Tomorrow!" = Claim.generate_id "rain tomorrow" :=
  ⟨rfl, h, rfl⟩

/-- C9 witness: the documented collision pair, with the normalization
hypothesis discharged by computation. -/
theorem claim_C9_witness :
    Claim.generate_id "Rain Tomorrow!" = Claim.generate_id "rain tomorrow" :=
  (claim_C9 "x" "Rain Tomorrow!" "rain tomorrow" rfl).2.2

/-- C10: the percentage accessors of `Likelihood` are total — when
`supporting + opposing = 0` both return 0 instead of dividing by zero, and
when the total is positive they equal `(supporting / total) * 100` and
`(opposing / total) * 100` respectively. -/
theorem claim_C10 (l : Likelihood) :
    (l.supporting + l.opposing = 0 →
      l.supporting_percentage = 0 ∧ l.opposing_percentage = 0) ∧
    (0 < l.supporting + l.opposing →
      l.supporting_percentage =
        ((l.supporting : Rat) / (((l.supporting + l.opposing : Nat) : Rat))) * 100 ∧
      l.opposing_percentage =
        ((l.opposing : Rat) / (((l.supporting + l.opposing : Nat) : Rat))) * 100) := by
  constructor
  · intro h0
    simp [Likelihood.supporting_percentage, Likelihood.opposing_percentage, h0]
  · intro hpos
    have hne : l.supporting + l.opposing ≠ 0 := by omega
    simp [Likelihood.supporting_percentage, Likelihood.opposing_percentage, hne]

/-- C10 witness: both the zero-total and positive-total cases at concrete
likelihood values. -/
theorem claim_C10_witness :
    (Likelihood.supporting_percentage ⟨0, 0⟩ = 0 ∧
      Likelihood.opposing_percentage ⟨0, 0⟩ = 0) ∧
    (Likelihood.supporting_percentage ⟨1, 3⟩ =
        ((((1 : Nat)) : Rat) / ((((1 + 3 : Nat)) : Rat))) * 100 ∧
      Likelihood.opposing_percentage ⟨1, 3⟩ =
        ((((3 : Nat)) : Rat) / ((((1 + 3 : Nat)) : Rat))) * 100) :=
  ⟨(claim_C10 ⟨0, 0⟩).1 rfl, (claim_C10 ⟨1, 3⟩).2 (by decide)⟩

end Sherlock
